import Mathlib

/-!
Verification of the TRPO/GAIL training core in `baselines/gail/trpo_mpi.py`.

The Python source is shallowly embedded: numpy float arrays become `List ℚ`,
the stateful trajectory generator becomes an explicit state-passing iterator,
external collaborators (environment, policy network, MPI transport, the Adam
optimizer, the conjugate-gradient solver) are modelled as function parameters,
and Python exceptions become `Except` values.
-/

/-! ## Advantage estimator: `add_vtarg_and_adv` (lines 114-133) -/

/-- The backward pass of `add_vtarg_and_adv` (lines 122-132).  In the source,
`new` is extended by `0` and `vpred` by `nextvpred`, then
`gaelam[t] = lastgaelam = delta_t + gamma*lam*nonterminal_t*lastgaelam` is
computed for `t` from `H-1` down to `0`, with
`nonterminal_t = 1 - new[t+1]` and `delta_t = rew[t] + gamma*vpred[t+1]*nonterminal_t - vpred[t]`.
The backward loop is expressed head-first: the already computed suffix `rest`
is the result of the earlier backward iterations, so `rest.headD 0` is
`lastgaelam` (initially `0`). -/
def gaelam (gamma lam : ℚ) : List ℚ → List ℚ → List ℚ → ℚ → List ℚ
  | [], _, _, _ => []
  | _ :: _, [], _, _ => []
  | _ :: _, _ :: _, [], _ => []
  | r :: rs, v :: vs, _ :: ns, nextv =>
    let nonterminal := 1 - ns.headD 0
    let rest := gaelam gamma lam rs vs ns nextv
    let delta := r + gamma * vs.headD nextv * nonterminal - v
    (delta + gamma * lam * nonterminal * rest.headD 0) :: rest

/-- `add_vtarg_and_adv` (lines 114-133): returns the advantage array
`seg["adv"]` and `seg["tdlamret"] = seg["adv"] + seg["vpred"]` (elementwise). -/
def add_vtarg_and_adv (gamma lam : ℚ) (rews vpreds news : List ℚ) (nextvpred : ℚ) :
    List ℚ × List ℚ :=
  let adv := gaelam gamma lam rews vpreds news nextvpred
  (adv, List.zipWith (· + ·) adv vpreds)

/-! ## Backtracking line search (TRPO.learn, lines 413-435) -/

/-- Summary of the averaged loss tuple used by the line search: `finiteAll`
models `np.isfinite(mean_losses).all()`, `kl` is `meankl` (the second loss),
`opt` is `optimgain` (the first loss, compared against `surrbefore`). -/
structure LossEval where
  finiteAll : Bool
  kl : ℚ
  opt : ℚ

/-- Acceptance test of one line-search attempt, mirroring the `if`/`elif`
chain of lines 423-431: reject on non-finite losses, then on
`kl_loss > max_kl * 1.5`, then on `improve < 0`; otherwise accept. -/
def ls_accept (max_kl surrbefore : ℚ) (l : LossEval) : Bool :=
  if l.finiteAll = false then false
  else if l.kl > max_kl * (3/2) then false
  else if l.opt - surrbefore < 0 then false
  else true

/-- Vector addition on flat parameter vectors. -/
def vecAdd (a b : List ℚ) : List ℚ := List.zipWith (· + ·) a b

/-- Scalar multiplication on flat parameter vectors. -/
def vecScale (c : ℚ) (v : List ℚ) : List ℚ := v.map (fun x => c * x)

/-- The backtracking loop of lines 413-435.  `fuel` counts the remaining
attempts (`10` initially, mirroring `for _ in range(10)`), `stepsize` starts
at `1` and is halved after every failed attempt, `idx` is the attempt index.
At each attempt the parameters are tentatively set to
`thbefore + fullstep * stepsize` and the loss tuple is recomputed on them.
Returns the final flat parameter vector together with the index of the
accepted attempt; when every attempt fails the `for`/`else` branch runs
`set_from_flat(thbefore)`, so the pre-update vector is restored exactly. -/
def linesearch_go (losses : List ℚ → LossEval) (max_kl surrbefore : ℚ)
    (thbefore fullstep : List ℚ) : ℕ → ℚ → ℕ → List ℚ × Option ℕ
  | 0, _, _ => (thbefore, none)
  | fuel + 1, stepsize, idx =>
    let thnew := vecAdd thbefore (vecScale stepsize fullstep)
    if ls_accept max_kl surrbefore (losses thnew) then (thnew, some idx)
    else linesearch_go losses max_kl surrbefore thbefore fullstep fuel (stepsize * (1/2)) (idx + 1)

/-- The full line search: 10 attempts starting at `stepsize = 1.0`. -/
def linesearch (losses : List ℚ → LossEval) (max_kl surrbefore : ℚ)
    (thbefore fullstep : List ℚ) : List ℚ × Option ℕ :=
  linesearch_go losses max_kl surrbefore thbefore fullstep 10 1 0

/-- Parameter vector tried at attempt `k`: `thbefore + (1/2)^k * fullstep`. -/
def lsParamsAt (thbefore fullstep : List ℚ) (k : ℕ) : List ℚ :=
  vecAdd thbefore (vecScale ((1/2) ^ k) fullstep)

/-- Whether attempt `k` would be accepted. -/
def lsAcceptAt (losses : List ℚ → LossEval) (max_kl surrbefore : ℚ)
    (thbefore fullstep : List ℚ) (k : ℕ) : Bool :=
  ls_accept max_kl surrbefore (losses (lsParamsAt thbefore fullstep k))

/-- An oracle that always reports a negative surrogate improvement, so that no
scale is ever accepted. -/
def lossesRej : List ℚ → LossEval := fun _ => ⟨true, 0, -1⟩

/-! ## Advantage standardization (TRPO.learn, line 383) -/

/-- Mean of a batch (`atarg.mean()`); numpy population semantics. -/
def listMean (xs : List ℚ) : ℚ := xs.sum / (xs.length : ℚ)

/-- Population variance of a batch (the square of `atarg.std()`).  `atarg.std()`
is zero exactly when this is zero, which lets us characterise the zero-divisor
case without a rational square root. -/
def listPopVar (xs : List ℚ) : ℚ :=
  ((xs.map (fun x => (x - listMean xs) ^ 2)).sum) / (xs.length : ℚ)

/-- Returns `true` on `Except.ok`. -/
def exOk {ε α : Type} : Except ε α → Bool
  | Except.ok _ => true
  | Except.error _ => false

/-- Line 383: `atarg = (atarg - atarg.mean()) / atarg.std()`.  The divisor
`std` is passed in (it satisfies `std ^ 2 = listPopVar xs`; for a constant
batch it is exactly `0`).  numpy raises no exception when `std` is zero: the
division is performed silently and every entry becomes non-finite (nan/inf),
modelled here as `none`.  The `Except` result records that no fatal error
channel exists on this path: the result is always `Except.ok`. -/
def atarg_standardize (xs : List ℚ) (std : ℚ) : Except Unit (List (Option ℚ)) :=
  Except.ok (xs.map (fun x => if std = 0 then none else some ((x - listMean xs) / std)))

/-! ## Periodic multi-worker consistency check (TRPO.learn, lines 436-439) -/

/-- `np.allclose` on scalars with numpy's default tolerances
(`rtol = 1e-5`, `atol = 1e-8`): `|a - b| <= atol + rtol * |b|`. -/
def np_allclose (a b : ℚ) : Bool :=
  decide (|a - b| ≤ 1/100000000 + (1/100000) * |b|)

/-- `np.allclose(ps, paramsums[0])` on one gathered tuple
`(thnew.sum(), vfadam.getflat().sum())`: both components must be allclose. -/
def checksum_pair_close (p q : ℚ × ℚ) : Bool :=
  np_allclose p.1 q.1 && np_allclose p.2 q.2

/-- Line 439: `assert all(np.allclose(ps, paramsums[0]) for ps in paramsums[1:])`. -/
def checksum_assert_passes : List (ℚ × ℚ) → Bool
  | [] => true
  | p0 :: rest => rest.all (fun ps => checksum_pair_close ps p0)

/-- Line 436: the check runs iff `nworkers > 1 and iters_so_far % 20 == 0`. -/
def consistency_check_due (nworkers iters_so_far : ℕ) : Bool :=
  decide (1 < nworkers) && decide (iters_so_far % 20 = 0)

/-! ## Discriminator update minibatching (TRPO.learn, lines 459-472) -/

/-- Modelled from the spec: `dataset.iterbatches` lives in
`baselines/common/dataset.py`, which is not under `src/`; per the spec the
batch is "partitioned into fixed-size minibatches (default 128, dropping an
incomplete final partial batch)" when `include_final_partial_batch=False`.
We model the sizes of the emitted minibatches: `n / batch_size` full
minibatches of `batch_size` elements each (shuffling does not change sizes). -/
def iterbatches_sizes (n batch_size : ℕ) : List ℕ :=
  List.replicate (n / batch_size) batch_size

/-- Line 460: `batch_size = len(observation) // self.d_step`. -/
def d_batch_size (n d_step : ℕ) : ℕ := n / d_step

/-- Sizes of the policy minibatches fed to the discriminator (lines 462-464). -/
def d_minibatch_sizes (n d_step : ℕ) : List ℕ :=
  iterbatches_sizes n (d_batch_size n d_step)

/-- Line 465: for each policy minibatch, `get_next_batch(len(ob_batch))` draws
an expert minibatch of the same size. -/
def expert_draw_sizes (n d_step : ℕ) : List ℕ := d_minibatch_sizes n d_step

/-- Line 470: one `d_adam.update` (adaptive-gradient step) per minibatch. -/
def d_adam_update_count (n d_step : ℕ) : ℕ := (d_minibatch_sizes n d_step).length

/-! ## Unimplemented operations (lines 329-341 and 501-506) -/

/-- The error raised by the unimplemented paths (`raise NotImplementedError`). -/
inductive TrpoErr where
  | notImplemented
deriving DecidableEq

/-- Lines 329-341 of `TRPO.learn`: the `pretrained_weight is not None` check
(line 337, `raise NotImplementedError`) runs only inside the
`if self.using_gail:` block (line 329).  With `using_gail` false the
pretrained weight is silently ignored. -/
def learn_pretrained_check {P : Type} (using_gail : Bool) (pretrained_weight : Option P) :
    Except TrpoErr Unit :=
  if using_gail then
    if pretrained_weight.isSome then Except.error TrpoErr.notImplemented else Except.ok ()
  else Except.ok ()

/-- `TRPO.save` (lines 501-502): `raise NotImplementedError`. -/
def TRPO_save : Except TrpoErr Unit := Except.error TrpoErr.notImplemented

/-- `TRPO.load` (lines 504-506): `raise NotImplementedError`. -/
def TRPO_load : Except TrpoErr Unit := Except.error TrpoErr.notImplemented

/-! ## Trajectory segment generator (`traj_segment_generator`, lines 20-111) -/

/-- The external collaborators of `traj_segment_generator`: a deterministic
model of the environment (`reset`/`step` threading the environment state `E`),
the policy (`act` returns `(action, vpred)` for an observation; the
`stochastic` flag is fixed by the caller), `env.action_space.sample()`, and in
GAIL mode the `reward_giver.get_reward` collaborator. -/
structure GenEnv (E O A : Type) where
  reset : E → E × O
  step : E → A → E × O × ℚ × Bool
  act : O → A × ℚ
  sample : A
  rewardOf : O → A → ℚ
  gail : Bool

/-- The generator's paused-cursor state: the loop variables of lines 46-66
(current observation, previous action, `new` flag, in-progress episode
accumulators, completed-episode lists) plus the history arrays.  The source
pre-allocates arrays of length `horizon` and overwrites index `step % horizon`;
since each window writes exactly the `horizon` indices in order, this is
modelled by buffers that restart empty at each window and are appended to
once per loop iteration. -/
structure GenState (E O A : Type) where
  env : E
  obs : O
  action : A
  done : Bool
  cur_ep_ret : ℚ
  cur_ep_true_ret : ℚ
  cur_ep_len : ℕ
  ep_rets : List ℚ
  ep_true_rets : List ℚ
  ep_lens : List ℕ
  obs_buf : List O
  rews : List ℚ
  true_rews : List ℚ
  vpreds : List ℚ
  news : List Bool
  acts : List A
  prevacs : List A

/-- One iteration of the generator loop body (lines 68-111, without the yield):
query the policy, record the step into the history arrays, step the
environment (in GAIL mode the recorded reward is `reward_giver.get_reward`
while the environment reward is the true reward), update the in-progress
episode accumulators, and on episode end flush them into the
completed-episode lists and reset the environment. -/
def genIter {E O A : Type} (G : GenEnv E O A) (s : GenState E O A) : GenState E O A :=
  let a := (G.act s.obs).1
  let vp := (G.act s.obs).2
  let sr := G.step s.env a
  let env1 := sr.1
  let obs1 := sr.2.1
  let true_rew := sr.2.2.1
  let done1 := sr.2.2.2
  let rew := if G.gail then G.rewardOf s.obs a else true_rew
  let obs_buf := s.obs_buf ++ [s.obs]
  let vpreds := s.vpreds ++ [vp]
  let news := s.news ++ [s.done]
  let acts := s.acts ++ [a]
  let prevacs := s.prevacs ++ [s.action]
  let rews := s.rews ++ [rew]
  let true_rews := s.true_rews ++ [true_rew]
  let ret1 := s.cur_ep_ret + rew
  let tret1 := s.cur_ep_true_ret + true_rew
  let len1 := s.cur_ep_len + 1
  if done1 then
    { env := (G.reset env1).1, obs := (G.reset env1).2, action := a, done := done1,
      cur_ep_ret := 0, cur_ep_true_ret := 0, cur_ep_len := 0,
      ep_rets := s.ep_rets ++ [ret1], ep_true_rets := s.ep_true_rets ++ [tret1],
      ep_lens := s.ep_lens ++ [len1],
      obs_buf := obs_buf, rews := rews, true_rews := true_rews, vpreds := vpreds,
      news := news, acts := acts, prevacs := prevacs }
  else
    { env := env1, obs := obs1, action := a, done := done1,
      cur_ep_ret := ret1, cur_ep_true_ret := tret1, cur_ep_len := len1,
      ep_rets := s.ep_rets, ep_true_rets := s.ep_true_rets, ep_lens := s.ep_lens,
      obs_buf := obs_buf, rews := rews, true_rews := true_rews, vpreds := vpreds,
      news := news, acts := acts, prevacs := prevacs }

/-- The `done` flag the environment returns at the iteration starting in `s`. -/
def iterDone {E O A : Type} (G : GenEnv E O A) (s : GenState E O A) : Bool :=
  (G.step s.env (G.act s.obs).1).2.2.2

/-- The true (environment) reward returned at the iteration starting in `s`. -/
def iterEnvRew {E O A : Type} (G : GenEnv E O A) (s : GenState E O A) : ℚ :=
  (G.step s.env (G.act s.obs).1).2.2.1

/-- The recorded reward at the iteration starting in `s`: the discriminator
reward in GAIL mode (line 92), otherwise the environment reward (line 95). -/
def iterRew {E O A : Type} (G : GenEnv E O A) (s : GenState E O A) : ℚ :=
  if G.gail then G.rewardOf s.obs (G.act s.obs).1 else iterEnvRew G s

/-- `n` iterations of the generator loop body. -/
def genSteps {E O A : Type} (G : GenEnv E O A) : ℕ → GenState E O A → GenState E O A
  | 0, s => s
  | n + 1, s => genSteps G n (genIter G s)

/-- The record yielded by the generator (lines 75-77).  Its fields are exactly
the keys of the yielded dict; note there is no per-step true-reward field. -/
structure Segment (O A : Type) where
  ob : List O
  rew : List ℚ
  vpred : List ℚ
  new : List Bool
  ac : List A
  prevac : List A
  nextvpred : ℚ
  ep_rets : List ℚ
  ep_lens : List ℕ
  ep_true_rets : List ℚ

/-- After a yield the completed-episode lists are cleared (lines 81-83) and the
history arrays are overwritten index-by-index during the next window, which is
modelled by restarting them empty. -/
def clearBufs {E O A : Type} (s : GenState E O A) : GenState E O A :=
  { s with
    ep_rets := []
    ep_true_rets := []
    ep_lens := []
    obs_buf := []
    rews := []
    true_rews := []
    vpreds := []
    news := []
    acts := []
    prevacs := [] }

/-- One yield of the generator: run `horizon` loop iterations, then emit the
segment of lines 75-77 with `nextvpred = vpred * (1 - new)` computed from a
fresh policy query on the current observation, and clear the episode lists.
(The post-yield re-query of `vpred` on the same observation, line 78, returns
the same value under this deterministic policy model.) -/
def collectSegment {E O A : Type} (G : GenEnv E O A) (horizon : ℕ) (s : GenState E O A) :
    Segment O A × GenState E O A :=
  let s1 := genSteps G horizon s
  ({ ob := s1.obs_buf, rew := s1.rews, vpred := s1.vpreds, new := s1.news, ac := s1.acts,
     prevac := s1.prevacs,
     nextvpred := (G.act s1.obs).2 * (if s1.done then 0 else 1),
     ep_rets := s1.ep_rets, ep_lens := s1.ep_lens, ep_true_rets := s1.ep_true_rets },
   clearBufs s1)

/-- The generator's initialization (lines 46-66): sample a placeholder action,
reset the environment, start with `new = True` and empty accumulators. -/
def initState {E O A : Type} (G : GenEnv E O A) (e0 : E) : GenState E O A :=
  { env := (G.reset e0).1, obs := (G.reset e0).2, action := G.sample, done := true,
    cur_ep_ret := 0, cur_ep_true_ret := 0, cur_ep_len := 0,
    ep_rets := [], ep_true_rets := [], ep_lens := [],
    obs_buf := [], rews := [], true_rews := [], vpreds := [], news := [],
    acts := [], prevacs := [] }

/-- All episode lists and history buffers of the state are empty (the
invariant holding at initialization and re-established after every yield). -/
def bufsCleared {E O A : Type} (s : GenState E O A) : Bool :=
  s.ep_rets.isEmpty && s.ep_true_rets.isEmpty && s.ep_lens.isEmpty && s.obs_buf.isEmpty
  && s.rews.isEmpty && s.true_rews.isEmpty && s.vpreds.isEmpty && s.news.isEmpty
  && s.acts.isEmpty && s.prevacs.isEmpty

/-- Reference definition, following the spec's words: the lengths of the
episodes that terminate within an `n`-step window starting at state `s`
(one entry per step at which the environment reports `done`). -/
def windowEpLens {E O A : Type} (G : GenEnv E O A) : ℕ → GenState E O A → List ℕ
  | 0, _ => []
  | n + 1, s =>
    (if iterDone G s then [s.cur_ep_len + 1] else []) ++ windowEpLens G n (genIter G s)

/-- Reference definition: the (recorded-reward) returns of the episodes that
terminate within an `n`-step window starting at `s`. -/
def windowEpRets {E O A : Type} (G : GenEnv E O A) : ℕ → GenState E O A → List ℚ
  | 0, _ => []
  | n + 1, s =>
    (if iterDone G s then [s.cur_ep_ret + iterRew G s] else [])
      ++ windowEpRets G n (genIter G s)

/-- Reference definition: the true-environment-reward returns of the episodes
that terminate within an `n`-step window starting at `s`. -/
def windowEpTrueRets {E O A : Type} (G : GenEnv E O A) : ℕ → GenState E O A → List ℚ
  | 0, _ => []
  | n + 1, s =>
    (if iterDone G s then [s.cur_ep_true_ret + iterEnvRew G s] else [])
      ++ windowEpTrueRets G n (genIter G s)

/-- The possible keys of the generator's records: the ten keys of the yielded
dict (lines 75-77) plus `true_rews`, the name of the internal per-step
true-reward array (line 61/98) which is never yielded. -/
inductive SegKey where
  | ob | rew | vpred | new | ac | prevac | nextvpred | ep_rets | ep_lens | ep_true_rets
  | true_rews
deriving DecidableEq

/-- The keys of the dict yielded at lines 75-77, in source order. -/
def segment_yield_keys : List SegKey :=
  [SegKey.ob, SegKey.rew, SegKey.vpred, SegKey.new, SegKey.ac, SegKey.prevac,
   SegKey.nextvpred, SegKey.ep_rets, SegKey.ep_lens, SegKey.ep_true_rets]

/-- A concrete non-GAIL environment/policy instance (integers as observations,
actions and environment state): the episode ends whenever the environment
counter is `0`, which happens at the first step after each reset. -/
def Gc : GenEnv ℤ ℤ ℤ where
  reset := fun e => (e, 0)
  step := fun e _ => (e + 1, e + 1, 1, decide (e = 0))
  act := fun o => (o + 1, o)
  sample := 0
  rewardOf := fun o a => o + a
  gail := false

/-- A concrete GAIL-mode instance: episodes never end, the discriminator
reward is `obs + action` while the environment reward is `2`. -/
def Gg : GenEnv ℤ ℤ ℤ :=
  { Gc with gail := true, step := fun e a => (e + 1, e + a, 2, false) }

/-- A concrete instance whose episodes never terminate. -/
def Gn : GenEnv ℤ ℤ ℤ :=
  { Gc with step := fun e a => (e + 1, e + a, 1, false) }

/-! ## Policy-update step of `TRPO.learn` (lines 395-448) -/

/-- `np.allclose(grad, 0)` with numpy's default tolerances: every entry within
`atol = 1e-8` of zero. -/
def allclose_zero (v : List ℚ) : Bool :=
  v.all (fun g => decide (|g| ≤ 1/100000000))

/-- Result of one `g_step` body: final policy parameters, final value-function
parameters, number of conjugate-gradient invocations, number of line-search
loss evaluations. -/
structure GStepResult where
  theta : List ℚ
  vf : List ℚ
  cg_calls : ℕ
  ls_evals : ℕ

/-- One `g_step` body of `TRPO.learn` (lines 395-448) after the gradient has
been computed and averaged.  If `np.allclose(grad, 0)` (line 399) the policy
update is skipped entirely ("Got zero gradient. not updating"): no
conjugate-gradient call, no line-search evaluation, policy parameters
untouched.  Otherwise the CG solver and step scaling produce `fullstep`
(modelled by the collaborator `computeFullstep`, one CG invocation) and the
backtracking line search runs.  In both cases the value-function refit block
(lines 441-448) then runs: one adaptive-gradient update (`vfadam.update`,
modelled by the collaborator `vfUpd`) per minibatch gradient. -/
def g_step_update (computeFullstep : List ℚ → List ℚ) (losses : List ℚ → LossEval)
    (max_kl surrbefore : ℚ) (vfUpd : List ℚ → List ℚ → List ℚ) (vfgrads : List (List ℚ))
    (theta vf grad : List ℚ) : GStepResult :=
  let pol :=
    if allclose_zero grad then (theta, 0, 0)
    else
      let fullstep := computeFullstep grad
      let res := linesearch losses max_kl surrbefore theta fullstep
      (res.1, 1, match res.2 with | some k => k + 1 | none => 10)
  let vf1 := vfgrads.foldl (fun w gr => vfUpd w gr) vf
  ⟨pol.1, vf1, pol.2.1, pol.2.2⟩

/-- A trivial full-step collaborator for concrete evaluations. -/
def cstep0 : List ℚ → List ℚ := fun g => g

/-- A trivial loss oracle for concrete evaluations. -/
def losses0 : List ℚ → LossEval := fun _ => ⟨true, 0, 0⟩

/-! ## Timestep accounting of `TRPO.learn` (lines 346-351, 478-491) -/

/-- `flatten_lists` (lines 509-516). -/
def flatten_lists {α : Type} (listoflists : List (List α)) : List α :=
  listoflists.flatten

/-- Lines 478-491: `lens` is the allgathered-and-flattened `seg["ep_lens"]` of
all workers and `timesteps_so_far += sum(lens)`. -/
def timesteps_update (timesteps_so_far : ℕ) (worker_ep_lens : List (List ℕ)) : ℕ :=
  timesteps_so_far + (flatten_lists worker_ep_lens).sum

/-- Lines 346-347: `if self.max_timesteps and timesteps_so_far >= self.max_timesteps`,
checked at the top of every iteration. -/
def budget_reached (max_timesteps timesteps_so_far : ℕ) : Bool :=
  decide (max_timesteps ≠ 0) && decide (max_timesteps ≤ timesteps_so_far)

/-! ## Theorems -/

theorem headD_append_singleton {α : Type} (l : List α) (x d : α) :
    (l ++ [x]).headD d = l.headD x := by
  cases l <;> rfl

theorem getD_zero_headD {α : Type} (l : List α) (d : α) : l.getD 0 d = l.headD d := by
  cases l <;> rfl

theorem gaelam_length (gamma lam : ℚ) :
    ∀ (rews vpreds news : List ℚ) (nextv : ℚ), vpreds.length = rews.length →
      news.length = rews.length →
      (gaelam gamma lam rews vpreds news nextv).length = rews.length := by
  intro rews
  induction rews with
  | nil => intro vpreds news nextv _ _; simp [gaelam]
  | cons r rs ih =>
    intro vpreds news nextv hv hn
    cases vpreds with
    | nil => simp at hv
    | cons v vs =>
      cases news with
      | nil => simp at hn
      | cons n ns =>
        simp only [gaelam, List.length_cons]
        rw [ih vs ns nextv (by simpa using hv) (by simpa using hn)]

theorem gaelam_getD (gamma lam : ℚ) :
    ∀ (rews vpreds news : List ℚ) (nextv : ℚ), vpreds.length = rews.length →
      news.length = rews.length → ∀ t, t < rews.length →
      (gaelam gamma lam rews vpreds news nextv).getD t 0 =
        (rews.getD t 0
          + gamma * (vpreds ++ [nextv]).getD (t + 1) 0 * (1 - (news ++ [0]).getD (t + 1) 0)
          - vpreds.getD t 0)
        + gamma * lam * (1 - (news ++ [0]).getD (t + 1) 0)
          * (gaelam gamma lam rews vpreds news nextv).getD (t + 1) 0 := by
  intro rews
  induction rews with
  | nil => intro vpreds news nextv _ _ t ht; simp at ht
  | cons r rs ih =>
    intro vpreds news nextv hv hn t ht
    cases vpreds with
    | nil => simp at hv
    | cons v vs =>
      cases news with
      | nil => simp at hn
      | cons n ns =>
        cases t with
        | zero =>
          simp only [gaelam, List.cons_append, List.getD_cons_succ, List.getD_cons_zero,
            getD_zero_headD, headD_append_singleton, List.headD_cons]
        | succ t' =>
          simp only [gaelam, List.cons_append, List.getD_cons_succ]
          exact ih vs ns nextv (by simpa using hv) (by simpa using hn) t'
            (by simpa using ht)

theorem zipWith_add_getD :
    ∀ (l₁ l₂ : List ℚ) (t : ℕ), t < l₁.length → t < l₂.length →
      (List.zipWith (· + ·) l₁ l₂).getD t 0 = l₁.getD t 0 + l₂.getD t 0 := by
  intro l₁
  induction l₁ with
  | nil => intro l₂ t h _; simp at h
  | cons a l ih =>
    intro l₂ t h1 h2
    cases l₂ with
    | nil => simp at h2
    | cons b m =>
      cases t with
      | zero => simp
      | succ t' =>
        simp only [List.zipWith_cons_cons, List.getD_cons_succ]
        exact ih m t' (by simpa using h1) (by simpa using h2)

/-- C1: for every segment with reward array of length `H`, every discount factor
`gamma ∈ (0,1]` and GAE factor `lam ∈ [0,1]`, `add_vtarg_and_adv` computes `adv`
by the backward recursion `delta_t = r_t + gamma*V(t+1)*nonterminal_t - V(t)`,
`adv[t] = delta_t + gamma*lam*nonterminal_t*adv[t+1]`, iterated from step `H-1`
down to `0` with `V(H) = nextvpred` and `nonterminal_t = 1 - new[t+1]`
(`new[H]` taken as `0`), and sets `tdlamret = adv + vpred` elementwise; on a
concrete short segment (`H = 3`, `gamma = 9/10`, `lam = 1/2`) it matches the
hand-computed reference. -/
theorem add_vtarg_and_adv_C1 :
    (∀ (gamma lam : ℚ), 0 < gamma → gamma ≤ 1 → 0 ≤ lam → lam ≤ 1 →
      ∀ (rews vpreds news : List ℚ) (nextv : ℚ),
        vpreds.length = rews.length → news.length = rews.length →
        ((add_vtarg_and_adv gamma lam rews vpreds news nextv).1.length = rews.length
        ∧ (∀ t, t < rews.length →
            (add_vtarg_and_adv gamma lam rews vpreds news nextv).1.getD t 0 =
              (rews.getD t 0
                + gamma * (vpreds ++ [nextv]).getD (t + 1) 0
                  * (1 - (news ++ [0]).getD (t + 1) 0)
                - vpreds.getD t 0)
              + gamma * lam * (1 - (news ++ [0]).getD (t + 1) 0)
                * (add_vtarg_and_adv gamma lam rews vpreds news nextv).1.getD (t + 1) 0)
        ∧ (∀ t, t < rews.length →
            (add_vtarg_and_adv gamma lam rews vpreds news nextv).2.getD t 0 =
              (add_vtarg_and_adv gamma lam rews vpreds news nextv).1.getD t 0
                + vpreds.getD t 0)))
    ∧ add_vtarg_and_adv (9/10) (1/2) [1, 2, 3] [2, 3, 4] [0, 1, 0] 5
        = ([-1, 167/40, 7/2], [1, 287/40, 15/2]) := by
  constructor
  · intro gamma lam _ _ _ _ rews vpreds news nextv hv hn
    refine ⟨?_, ?_, ?_⟩
    · simpa [add_vtarg_and_adv] using gaelam_length gamma lam rews vpreds news nextv hv hn
    · intro t ht
      simpa [add_vtarg_and_adv] using gaelam_getD gamma lam rews vpreds news nextv hv hn t ht
    · intro t ht
      have hlen := gaelam_length gamma lam rews vpreds news nextv hv hn
      simpa [add_vtarg_and_adv] using
        zipWith_add_getD (gaelam gamma lam rews vpreds news nextv) vpreds t
          (by omega) (by omega)
  · simp only [add_vtarg_and_adv, gaelam, List.headD_cons, List.zipWith_cons_cons,
      List.zipWith_nil_right, Prod.mk.injEq, List.cons.injEq, and_true, List.zipWith_nil_left]
    norm_num

/-- Witness for C1 at the concrete segment `H = 3`. -/
theorem add_vtarg_and_adv_C1_witness :
    ((0:ℚ) < 9/10 ∧ (9:ℚ)/10 ≤ 1 ∧ (0:ℚ) ≤ 1/2 ∧ (1:ℚ)/2 ≤ 1)
    ∧ (add_vtarg_and_adv (9/10) (1/2) [1, 2, 3] [2, 3, 4] [0, 1, 0] 5).2.getD 0 0 =
        (add_vtarg_and_adv (9/10) (1/2) [1, 2, 3] [2, 3, 4] [0, 1, 0] 5).1.getD 0 0
          + ([2, 3, 4] : List ℚ).getD 0 0 := by
  refine ⟨by norm_num, ?_⟩
  exact (add_vtarg_and_adv_C1.1 (9/10) (1/2) (by norm_num) (by norm_num) (by norm_num)
    (by norm_num) [1, 2, 3] [2, 3, 4] [0, 1, 0] 5 rfl rfl).2.2 0 (by norm_num)

theorem linesearch_go_none (losses : List ℚ → LossEval) (max_kl surrbefore : ℚ)
    (thbefore fullstep : List ℚ) :
    ∀ (fuel idx : ℕ),
      (∀ k, idx ≤ k → k < idx + fuel →
        lsAcceptAt losses max_kl surrbefore thbefore fullstep k = false) →
      linesearch_go losses max_kl surrbefore thbefore fullstep fuel ((1/2) ^ idx) idx
        = (thbefore, none) := by
  intro fuel
  induction fuel with
  | zero => intro idx _; rfl
  | succ fuel ih =>
    intro idx h
    have hrej : lsAcceptAt losses max_kl surrbefore thbefore fullstep idx = false :=
      h idx le_rfl (by omega)
    simp only [lsAcceptAt, lsParamsAt] at hrej
    simp only [linesearch_go, hrej, Bool.false_eq_true, if_false]
    rw [show ((1:ℚ)/2) ^ idx * (1/2) = (1/2) ^ (idx + 1) from (pow_succ _ _).symm]
    exact ih (idx + 1) (fun k h1 h2 => h k (by omega) (by omega))

theorem linesearch_go_accept (losses : List ℚ → LossEval) (max_kl surrbefore : ℚ)
    (thbefore fullstep : List ℚ) :
    ∀ (fuel idx k : ℕ), idx ≤ k → k < idx + fuel →
      lsAcceptAt losses max_kl surrbefore thbefore fullstep k = true →
      (∀ j, idx ≤ j → j < k →
        lsAcceptAt losses max_kl surrbefore thbefore fullstep j = false) →
      linesearch_go losses max_kl surrbefore thbefore fullstep fuel ((1/2) ^ idx) idx
        = (lsParamsAt thbefore fullstep k, some k) := by
  intro fuel
  induction fuel with
  | zero => intro idx k h1 h2 _ _; omega
  | succ fuel ih =>
    intro idx k h1 h2 hacc hprev
    rcases Nat.eq_or_lt_of_le h1 with heq | hlt
    · subst heq
      simp only [lsAcceptAt, lsParamsAt] at hacc
      simp only [linesearch_go, hacc, if_true]
      rfl
    · have hrej : lsAcceptAt losses max_kl surrbefore thbefore fullstep idx = false :=
        hprev idx le_rfl hlt
      simp only [lsAcceptAt, lsParamsAt] at hrej
      simp only [linesearch_go, hrej, Bool.false_eq_true, if_false]
      rw [show ((1:ℚ)/2) ^ idx * (1/2) = (1/2) ^ (idx + 1) from (pow_succ _ _).symm]
      exact ih (idx + 1) k (by omega) (by omega) hacc (fun j hj1 hj2 => hprev j (by omega) hj2)

/-- C2: in the backtracking line search, for every starting parameter vector
`thbefore` and full step, at each attempted scale the parameters are set to
`thbefore + scale * fullstep` and the loss tuple is recomputed there; an
attempt is accepted if and only if all averaged losses are finite AND the mean
KL is at most `1.5 * max_kl` AND the surrogate improvement is nonnegative, in
which case the new parameters are kept and the search stops at the first such
scale; if all 10 attempts (scales `1, 1/2, ..., (1/2)^9`, halving on each
failure) fail, the parameters are restored to exactly `thbefore`, with no
partial step persisting. -/
theorem linesearch_C2 (losses : List ℚ → LossEval) (max_kl surrbefore : ℚ)
    (thbefore fullstep : List ℚ) :
    ((∀ k, k < 10 → lsAcceptAt losses max_kl surrbefore thbefore fullstep k = false) →
        linesearch losses max_kl surrbefore thbefore fullstep = (thbefore, none))
    ∧ (∀ k, k < 10 → lsAcceptAt losses max_kl surrbefore thbefore fullstep k = true →
        (∀ j, j < k → lsAcceptAt losses max_kl surrbefore thbefore fullstep j = false) →
        linesearch losses max_kl surrbefore thbefore fullstep
          = (lsParamsAt thbefore fullstep k, some k))
    ∧ (∀ l : LossEval, ls_accept max_kl surrbefore l = true ↔
        (l.finiteAll = true ∧ l.kl ≤ max_kl * (3/2) ∧ 0 ≤ l.opt - surrbefore)) := by
  refine ⟨?_, ?_, ?_⟩
  · intro h
    unfold linesearch
    rw [show (1:ℚ) = (1/2) ^ (0:ℕ) by norm_num]
    exact linesearch_go_none losses max_kl surrbefore thbefore fullstep 10 0
      (fun k _ h2 => h k (by omega))
  · intro k hk hacc hprev
    unfold linesearch
    rw [show (1:ℚ) = (1/2) ^ (0:ℕ) by norm_num]
    exact linesearch_go_accept losses max_kl surrbefore thbefore fullstep 10 0 k
      (Nat.zero_le k) (by omega) hacc (fun j _ hj => hprev j hj)
  · intro l
    unfold ls_accept
    split_ifs with h1 h2 h3
    · simp only [Bool.false_eq_true, false_iff]
      intro hc
      exact absurd hc.1 (by simp [h1])
    · simp only [Bool.false_eq_true, false_iff]
      intro hc
      exact absurd hc.2.1 (by simpa using h2)
    · simp only [Bool.false_eq_true, false_iff]
      intro hc
      exact absurd hc.2.2 (by simpa using h3)
    · simp only [true_iff]
      refine ⟨by simpa using h1, by linarith [not_lt.mp h2], by linarith [not_lt.mp h3]⟩

/-- Witness for C2: with an oracle under which every scale fails, the final
parameters equal `thbefore` exactly. -/
theorem linesearch_C2_witness :
    linesearch lossesRej (1/100) 0 [1] [1] = ([1], none) :=
  (linesearch_C2 lossesRej (1/100) 0 [1] [1]).1 (fun k _ => by
    simp only [lsAcceptAt, lossesRej, ls_accept]
    norm_num)

/-- C3 counterexample: on the constant batch `[2, 2, 2]` the population
variance is exactly zero, so `atarg.std()` is exactly `0`, yet the
standardization of line 383 does not signal any fatal condition — it returns
normally (with every entry non-finite).  This refutes the claim that the code
guards the zero-standard-deviation case as a fatal numerical condition. -/
theorem atarg_standardize_C3_counterexample :
    (0:ℚ) ^ 2 = listPopVar [2, 2, 2] ∧ exOk (atarg_standardize [2, 2, 2] 0) = true := by
  constructor
  · norm_num [listPopVar, listMean]
  · rfl

/-- C3 (amended): advantage standardization divides by the batch population
standard deviation with no guard: when the variance (hence the standard
deviation) is exactly zero, the division is performed silently, every
standardized entry is non-finite, and no fatal error is raised. -/
theorem atarg_standardize_C3 (xs : List ℚ) (std : ℚ)
    (hstd : std ^ 2 = listPopVar xs) (hvar : listPopVar xs = 0) :
    exOk (atarg_standardize xs std) = true
    ∧ atarg_standardize xs std = Except.ok (List.replicate xs.length none) := by
  have h0 : std = 0 := by
    have hsq : std ^ 2 = 0 := by rw [hstd, hvar]
    exact pow_eq_zero_iff (two_ne_zero) |>.mp hsq
  subst h0
  refine ⟨rfl, ?_⟩
  simp only [atarg_standardize, if_pos rfl]
  congr 1
  exact List.map_const' xs none

/-- Witness for C3 at the constant batch `[2, 2, 2]`. -/
theorem atarg_standardize_C3_witness :
    ((0:ℚ) ^ 2 = listPopVar [2, 2, 2] ∧ listPopVar [(2:ℚ), 2, 2] = 0)
    ∧ atarg_standardize [2, 2, 2] 0 = Except.ok (List.replicate 3 none) := by
  have h := atarg_standardize_C3 [2, 2, 2] 0 (by norm_num [listPopVar, listMean])
    (by norm_num [listPopVar, listMean])
  exact ⟨⟨by norm_num [listPopVar, listMean], by norm_num [listPopVar, listMean]⟩, h.2⟩

/-- C5 counterexample: at a checked iteration (2 workers, iteration 20), two
workers whose checksums differ (by `1e-9`) — a mismatch — still pass the
assertion, because the code compares with `np.allclose`, not exact equality.
This refutes the claim that checksums "must match exactly" with "any mismatch"
fatal. -/
theorem consistency_check_C5_counterexample :
    consistency_check_due 2 20 = true
    ∧ ((1/1000000000 : ℚ), (0:ℚ)) ≠ ((0:ℚ), (0:ℚ))
    ∧ checksum_assert_passes [((0:ℚ), (0:ℚ)), ((1/1000000000 : ℚ), (0:ℚ))] = true := by
  refine ⟨rfl, by norm_num, ?_⟩
  simp only [checksum_assert_passes, List.all_cons, List.all_nil, Bool.and_true,
    checksum_pair_close, np_allclose]
  rw [show |((1:ℚ)/1000000000 - 0)| = 1/1000000000 by rw [sub_zero]; exact abs_of_pos (by norm_num)]
  norm_num

/-- C5 (amended): in multi-worker runs, every 20 iterations
(`iters_so_far % 20 == 0` with more than one worker) all workers' policy
parameter-vector checksums and value-optimizer state checksums are asserted
approximately equal under `np.allclose` tolerance
(`|a - b| <= 1e-8 + 1e-5 * |b|`); a checksum beyond that tolerance makes the
assertion fail (an uncaught `AssertionError`, fatal to the run), so two
workers with deliberately divergent parameter vectors fail the check. -/
theorem consistency_check_C5 :
    (∀ nworkers iters_so_far, consistency_check_due nworkers iters_so_far = true ↔
        (1 < nworkers ∧ iters_so_far % 20 = 0))
    ∧ (∀ (a b : ℚ), 1/100000000 + (1/100000) * |b| < |a - b| → np_allclose a b = false)
    ∧ (∀ (p0 ps : ℚ × ℚ) (rest : List (ℚ × ℚ)), ps ∈ rest →
        checksum_pair_close ps p0 = false →
        checksum_assert_passes (p0 :: rest) = false) := by
  refine ⟨?_, ?_, ?_⟩
  · intro n i
    simp [consistency_check_due]
  · intro a b h
    simp only [np_allclose, decide_eq_false_iff_not, not_le]
    exact h
  · intro p0 ps rest hmem hfail
    simp only [checksum_assert_passes]
    rw [Bool.eq_false_iff]
    intro hall
    rw [List.all_eq_true] at hall
    have := hall ps hmem
    rw [hfail] at this
    exact Bool.false_ne_true this

/-- Witness for C5: two deliberately divergent workers (checksums `0` and `1`)
fail the periodic assertion. -/
theorem consistency_check_C5_witness :
    (((1:ℚ), (0:ℚ)) ∈ [((1:ℚ), (0:ℚ))]
      ∧ checksum_pair_close ((1:ℚ), (0:ℚ)) ((0:ℚ), (0:ℚ)) = false)
    ∧ checksum_assert_passes [((0:ℚ), (0:ℚ)), ((1:ℚ), (0:ℚ))] = false := by
  have hfail : checksum_pair_close ((1:ℚ), (0:ℚ)) ((0:ℚ), (0:ℚ)) = false := by
    simp only [checksum_pair_close, np_allclose]
    norm_num
  exact ⟨⟨List.mem_singleton.mpr rfl, hfail⟩,
    consistency_check_C5.2.2 ((0:ℚ), (0:ℚ)) ((1:ℚ), (0:ℚ)) [((1:ℚ), (0:ℚ))]
      (List.mem_singleton.mpr rfl) hfail⟩

/-- C8 counterexample: with a policy batch of `N = 10` pairs and `d_step = 4`,
`batch_size = 10 / 4 = 2` and the update runs `10 / 2 = 5` minibatches — not
`d_step = 4`.  This refutes the claim that the policy batch is partitioned
into exactly `d_step` minibatches for every `N` and `d_step ≥ 1`. -/
theorem discriminator_minibatch_C8_counterexample :
    (d_minibatch_sizes 10 4).length ≠ 4 ∧ (d_minibatch_sizes 10 4).length = 5 := by
  constructor <;> decide

/-- C8 (amended): the discriminator update partitions the policy batch of `N`
pairs into `N / (N / d_step)` minibatches of `N / d_step` elements each (the
final partial batch is dropped), which equals exactly `d_step` whenever
`d_step` divides `N`; for each minibatch an expert minibatch of the same size
is drawn, and one adaptive-gradient step is applied per minibatch. -/
theorem discriminator_minibatch_C8 (n d_step : ℕ) (hn : 0 < n) (hd : d_step ∣ n) :
    (d_minibatch_sizes n d_step).length = d_step
    ∧ (∀ b ∈ d_minibatch_sizes n d_step, b = n / d_step)
    ∧ expert_draw_sizes n d_step = d_minibatch_sizes n d_step
    ∧ d_adam_update_count n d_step = d_step := by
  have hlen : n / (n / d_step) = d_step := Nat.div_div_self hd (by omega)
  refine ⟨?_, ?_, rfl, ?_⟩
  · simp [d_minibatch_sizes, iterbatches_sizes, d_batch_size, hlen]
  · intro b hb
    exact List.eq_of_mem_replicate hb
  · simp [d_adam_update_count, d_minibatch_sizes, iterbatches_sizes, d_batch_size, hlen]

/-- Witness for C8 at `N = 12`, `d_step = 4`. -/
theorem discriminator_minibatch_C8_witness :
    ((0:ℕ) < 12 ∧ (4:ℕ) ∣ 12) ∧ (d_minibatch_sizes 12 4).length = 4 :=
  ⟨⟨by decide, by decide⟩, (discriminator_minibatch_C8 12 4 (by decide) (by decide)).1⟩

/-- C9 counterexample: with GAIL disabled and a non-None `pretrained_weight`,
`TRPO.learn` raises nothing — the weight is silently ignored.  This refutes
the claim that the "not supported" signal surfaces for every configuration. -/
theorem not_supported_C9_counterexample :
    learn_pretrained_check false (some (0 : ℕ)) = Except.ok ()
    ∧ (some (0 : ℕ)).isSome = true :=
  ⟨rfl, rfl⟩

/-- C9 (amended): in GAIL mode a non-None `pretrained_weight` raises
`NotImplementedError`; with GAIL disabled it is silently ignored (no signal);
`save` and `load` always raise `NotImplementedError`. -/
theorem not_supported_C9 {P : Type} (pw : Option P) (hpw : pw.isSome = true) :
    learn_pretrained_check true pw = Except.error TrpoErr.notImplemented
    ∧ learn_pretrained_check false pw = Except.ok ()
    ∧ TRPO_save = Except.error TrpoErr.notImplemented
    ∧ TRPO_load = Except.error TrpoErr.notImplemented := by
  refine ⟨?_, rfl, rfl, rfl⟩
  simp [learn_pretrained_check, hpw]

/-- Witness for C9 at a concrete non-None pretrained weight. -/
theorem not_supported_C9_witness :
    (some (0:ℕ)).isSome = true
    ∧ learn_pretrained_check true (some (0:ℕ)) = Except.error TrpoErr.notImplemented :=
  ⟨rfl, (not_supported_C9 (some (0:ℕ)) rfl).1⟩

theorem genIter_obs_buf {E O A : Type} (G : GenEnv E O A) (s : GenState E O A) :
    (genIter G s).obs_buf = s.obs_buf ++ [s.obs] := by
  simp only [genIter]
  split <;> rfl

theorem genIter_rews {E O A : Type} (G : GenEnv E O A) (s : GenState E O A) :
    (genIter G s).rews = s.rews ++ [iterRew G s] := by
  simp only [genIter]
  split <;> rfl

theorem genIter_true_rews {E O A : Type} (G : GenEnv E O A) (s : GenState E O A) :
    (genIter G s).true_rews = s.true_rews ++ [iterEnvRew G s] := by
  simp only [genIter]
  split <;> rfl

theorem genIter_vpreds {E O A : Type} (G : GenEnv E O A) (s : GenState E O A) :
    (genIter G s).vpreds = s.vpreds ++ [(G.act s.obs).2] := by
  simp only [genIter]
  split <;> rfl

theorem genIter_news {E O A : Type} (G : GenEnv E O A) (s : GenState E O A) :
    (genIter G s).news = s.news ++ [s.done] := by
  simp only [genIter]
  split <;> rfl

theorem genIter_acts {E O A : Type} (G : GenEnv E O A) (s : GenState E O A) :
    (genIter G s).acts = s.acts ++ [(G.act s.obs).1] := by
  simp only [genIter]
  split <;> rfl

theorem genIter_prevacs {E O A : Type} (G : GenEnv E O A) (s : GenState E O A) :
    (genIter G s).prevacs = s.prevacs ++ [s.action] := by
  simp only [genIter]
  split <;> rfl

theorem genIter_ep_lens {E O A : Type} (G : GenEnv E O A) (s : GenState E O A) :
    (genIter G s).ep_lens
      = s.ep_lens ++ (if iterDone G s then [s.cur_ep_len + 1] else []) := by
  simp only [genIter, iterDone]
  split <;> simp_all

theorem genIter_ep_rets {E O A : Type} (G : GenEnv E O A) (s : GenState E O A) :
    (genIter G s).ep_rets
      = s.ep_rets ++ (if iterDone G s then [s.cur_ep_ret + iterRew G s] else []) := by
  simp only [genIter, iterDone, iterRew, iterEnvRew]
  split <;> simp_all

theorem genIter_ep_true_rets {E O A : Type} (G : GenEnv E O A) (s : GenState E O A) :
    (genIter G s).ep_true_rets
      = s.ep_true_rets
        ++ (if iterDone G s then [s.cur_ep_true_ret + iterEnvRew G s] else []) := by
  simp only [genIter, iterDone, iterEnvRew]
  split <;> simp_all

theorem genSteps_ep_lens {E O A : Type} (G : GenEnv E O A) :
    ∀ (n : ℕ) (s : GenState E O A),
      (genSteps G n s).ep_lens = s.ep_lens ++ windowEpLens G n s := by
  intro n
  induction n with
  | zero => intro s; simp [genSteps, windowEpLens]
  | succ n ih =>
    intro s
    show (genSteps G n (genIter G s)).ep_lens = _
    rw [ih (genIter G s), genIter_ep_lens]
    simp [windowEpLens]

theorem genSteps_ep_rets {E O A : Type} (G : GenEnv E O A) :
    ∀ (n : ℕ) (s : GenState E O A),
      (genSteps G n s).ep_rets = s.ep_rets ++ windowEpRets G n s := by
  intro n
  induction n with
  | zero => intro s; simp [genSteps, windowEpRets]
  | succ n ih =>
    intro s
    show (genSteps G n (genIter G s)).ep_rets = _
    rw [ih (genIter G s), genIter_ep_rets]
    simp [windowEpRets]

theorem genSteps_ep_true_rets {E O A : Type} (G : GenEnv E O A) :
    ∀ (n : ℕ) (s : GenState E O A),
      (genSteps G n s).ep_true_rets = s.ep_true_rets ++ windowEpTrueRets G n s := by
  intro n
  induction n with
  | zero => intro s; simp [genSteps, windowEpTrueRets]
  | succ n ih =>
    intro s
    show (genSteps G n (genIter G s)).ep_true_rets = _
    rw [ih (genIter G s), genIter_ep_true_rets]
    simp [windowEpTrueRets]

theorem genSteps_buf_lengths {E O A : Type} (G : GenEnv E O A) :
    ∀ (n : ℕ) (s : GenState E O A),
      (genSteps G n s).obs_buf.length = s.obs_buf.length + n
      ∧ (genSteps G n s).rews.length = s.rews.length + n
      ∧ (genSteps G n s).vpreds.length = s.vpreds.length + n
      ∧ (genSteps G n s).news.length = s.news.length + n
      ∧ (genSteps G n s).acts.length = s.acts.length + n
      ∧ (genSteps G n s).prevacs.length = s.prevacs.length + n := by
  intro n
  induction n with
  | zero => intro s; simp [genSteps]
  | succ n ih =>
    intro s
    have h := ih (genIter G s)
    simp only [genSteps]
    rw [h.1, h.2.1, h.2.2.1, h.2.2.2.1, h.2.2.2.2.1, h.2.2.2.2.2,
      genIter_obs_buf, genIter_rews, genIter_vpreds, genIter_news, genIter_acts,
      genIter_prevacs]
    simp only [List.length_append, List.length_singleton]
    omega

theorem bufsCleared_elim {E O A : Type} (s : GenState E O A) (h : bufsCleared s = true) :
    s.ep_rets = [] ∧ s.ep_true_rets = [] ∧ s.ep_lens = [] ∧ s.obs_buf = []
    ∧ s.rews = [] ∧ s.true_rews = [] ∧ s.vpreds = [] ∧ s.news = []
    ∧ s.acts = [] ∧ s.prevacs = [] := by
  simp only [bufsCleared, Bool.and_eq_true, List.isEmpty_iff] at h
  tauto

theorem collectSegment_ep_lists {E O A : Type} (G : GenEnv E O A) (horizon : ℕ)
    (s : GenState E O A) (hs : bufsCleared s = true) :
    (collectSegment G horizon s).1.ep_lens = windowEpLens G horizon s
    ∧ (collectSegment G horizon s).1.ep_rets = windowEpRets G horizon s
    ∧ (collectSegment G horizon s).1.ep_true_rets = windowEpTrueRets G horizon s := by
  obtain ⟨h1, h2, h3, -⟩ := bufsCleared_elim s hs
  refine ⟨?_, ?_, ?_⟩
  · show (genSteps G horizon s).ep_lens = _
    rw [genSteps_ep_lens, h3, List.nil_append]
  · show (genSteps G horizon s).ep_rets = _
    rw [genSteps_ep_rets, h1, List.nil_append]
  · show (genSteps G horizon s).ep_true_rets = _
    rw [genSteps_ep_true_rets, h2, List.nil_append]

theorem collectSegment_lengths {E O A : Type} (G : GenEnv E O A) (horizon : ℕ)
    (s : GenState E O A) (hs : bufsCleared s = true) :
    (collectSegment G horizon s).1.ob.length = horizon
    ∧ (collectSegment G horizon s).1.rew.length = horizon
    ∧ (collectSegment G horizon s).1.vpred.length = horizon
    ∧ (collectSegment G horizon s).1.new.length = horizon
    ∧ (collectSegment G horizon s).1.ac.length = horizon
    ∧ (collectSegment G horizon s).1.prevac.length = horizon := by
  obtain ⟨-, -, -, h4, h5, -, h7, h8, h9, h10⟩ := bufsCleared_elim s hs
  have h := genSteps_buf_lengths G horizon s
  refine ⟨?_, ?_, ?_, ?_, ?_, ?_⟩
  · show (genSteps G horizon s).obs_buf.length = horizon
    rw [h.1, h4]; simp
  · show (genSteps G horizon s).rews.length = horizon
    rw [h.2.1, h5]; simp
  · show (genSteps G horizon s).vpreds.length = horizon
    rw [h.2.2.1, h7]; simp
  · show (genSteps G horizon s).news.length = horizon
    rw [h.2.2.2.1, h8]; simp
  · show (genSteps G horizon s).acts.length = horizon
    rw [h.2.2.2.2.1, h9]; simp
  · show (genSteps G horizon s).prevacs.length = horizon
    rw [h.2.2.2.2.2, h10]; simp

theorem collectSegment_cleared {E O A : Type} (G : GenEnv E O A) (horizon : ℕ)
    (s : GenState E O A) : bufsCleared (collectSegment G horizon s).2 = true := by
  simp [collectSegment, clearBufs, bufsCleared]

/-- C6: for every horizon `H ≥ 1`, each segment yielded by the generator has
exactly `H` filled per-step entries (`ob`, `rew`, `vpred`, `new`, `ac`,
`prevac`); its `ep_rets`/`ep_lens`/`ep_true_rets` lists contain entries
exactly for the episodes that terminated within the emitted window
(accumulated since the previous yield — the state invariant `bufsCleared`,
established at initialization and re-established by every yield); and the
lists are cleared after each segment is yielded. -/
theorem traj_segment_generator_C6 {E O A : Type} (G : GenEnv E O A) (horizon : ℕ)
    (s : GenState E O A) (_hH : 1 ≤ horizon) (hs : bufsCleared s = true) :
    ((collectSegment G horizon s).1.ob.length = horizon
      ∧ (collectSegment G horizon s).1.rew.length = horizon
      ∧ (collectSegment G horizon s).1.vpred.length = horizon
      ∧ (collectSegment G horizon s).1.new.length = horizon
      ∧ (collectSegment G horizon s).1.ac.length = horizon
      ∧ (collectSegment G horizon s).1.prevac.length = horizon)
    ∧ ((collectSegment G horizon s).1.ep_lens = windowEpLens G horizon s
      ∧ (collectSegment G horizon s).1.ep_rets = windowEpRets G horizon s
      ∧ (collectSegment G horizon s).1.ep_true_rets = windowEpTrueRets G horizon s)
    ∧ bufsCleared (collectSegment G horizon s).2 = true :=
  ⟨collectSegment_lengths G horizon s hs, collectSegment_ep_lists G horizon s hs,
    collectSegment_cleared G horizon s⟩

/-- Witness for C6 at the concrete instance `Gc`, horizon 2, from the
generator's initial state. -/
theorem traj_segment_generator_C6_witness :
    ((1:ℕ) ≤ 2 ∧ bufsCleared (initState Gc 0) = true)
    ∧ (collectSegment Gc 2 (initState Gc 0)).1.ob.length = 2
    ∧ (collectSegment Gc 2 (initState Gc 0)).1.ep_lens = windowEpLens Gc 2 (initState Gc 0)
    ∧ bufsCleared (collectSegment Gc 2 (initState Gc 0)).2 = true := by
  have h := traj_segment_generator_C6 Gc 2 (initState Gc 0) (by decide) (by decide)
  exact ⟨⟨by decide, by decide⟩, h.1.1, h.2.1.1, h.2.2⟩

/-- C7 counterexample: the record yielded by the generator (lines 75-77) does
not hold a per-step true environment reward: the internal `true_rews` array
(line 98) is not among the yielded keys.  This refutes the claim that every
emitted segment holds the true environment reward per time step. -/
theorem segment_truerew_C7_counterexample : SegKey.true_rews ∉ segment_yield_keys := by
  decide

/-- C7 (amended): the generator tracks the per-step true environment reward in
an internal buffer and, per completed episode, in the yielded `ep_true_rets`
list, but the emitted record has no per-step true-reward field; in GAIL mode
the per-step `rew` entry is the discriminator-derived reward
(`reward_giver.get_reward`) while the true environment reward accumulates in
the internal buffer. -/
theorem segment_truerew_C7 {E O A : Type} (G : GenEnv E O A) (s : GenState E O A)
    (hg : G.gail = true) :
    (SegKey.ep_true_rets ∈ segment_yield_keys ∧ SegKey.true_rews ∉ segment_yield_keys)
    ∧ (genIter G s).rews = s.rews ++ [G.rewardOf s.obs (G.act s.obs).1]
    ∧ (genIter G s).true_rews = s.true_rews ++ [iterEnvRew G s] := by
  refine ⟨by decide, ?_, genIter_true_rews G s⟩
  rw [genIter_rews]
  simp [iterRew, hg]

/-- Witness for C7 at the concrete GAIL instance `Gg`. -/
theorem segment_truerew_C7_witness :
    Gg.gail = true
    ∧ (genIter Gg (initState Gg 0)).rews
        = (initState Gg 0).rews ++ [Gg.rewardOf (initState Gg 0).obs ((Gg.act (initState Gg 0).obs).1)] :=
  ⟨rfl, (segment_truerew_C7 Gg (initState Gg 0) rfl).2.1⟩

/-- C4 counterexample: with the policy gradient exactly zero (`grad = [0]`),
nonempty value-function minibatch gradients and an additive value optimizer,
the iteration still mutates the value-function parameters (from `[0]` to
`[1]`), because the value-function refit block (lines 441-448) sits outside
the zero-gradient skip branch.  This refutes the claim that no parameter
mutation at all occurs on the zero-gradient path. -/
theorem g_step_update_C4_counterexample :
    (g_step_update cstep0 losses0 (1/100) 0 vecAdd [[1]] [1] [0] [0]).vf ≠ [0] := by
  have hac : allclose_zero [(0:ℚ)] = true := by
    simp [allclose_zero]
  simp [g_step_update, hac, vecAdd]

/-- C4 (amended): when the averaged policy gradient is exactly the zero
vector, the policy update is skipped as a valid no-op — the policy parameters
are unchanged, no conjugate-gradient call and no line-search evaluation is
made, and the loop continues — but the value-function refit still runs, so
the value-function parameters are still updated by the per-minibatch
adaptive-gradient steps. -/
theorem g_step_update_C4 (computeFullstep : List ℚ → List ℚ) (losses : List ℚ → LossEval)
    (max_kl surrbefore : ℚ) (vfUpd : List ℚ → List ℚ → List ℚ) (vfgrads : List (List ℚ))
    (theta vf grad : List ℚ) (hz : ∀ g ∈ grad, g = (0:ℚ)) :
    (g_step_update computeFullstep losses max_kl surrbefore vfUpd vfgrads theta vf grad).theta
        = theta
    ∧ (g_step_update computeFullstep losses max_kl surrbefore vfUpd vfgrads theta vf grad).cg_calls
        = 0
    ∧ (g_step_update computeFullstep losses max_kl surrbefore vfUpd vfgrads theta vf grad).ls_evals
        = 0
    ∧ (g_step_update computeFullstep losses max_kl surrbefore vfUpd vfgrads theta vf grad).vf
        = vfgrads.foldl (fun w gr => vfUpd w gr) vf := by
  have hac : allclose_zero grad = true := by
    simp only [allclose_zero, List.all_eq_true, decide_eq_true_eq]
    intro g hg
    rw [hz g hg]
    norm_num
  simp [g_step_update, hac]

/-- Witness for C4 at the concrete zero-gradient input. -/
theorem g_step_update_C4_witness :
    (g_step_update cstep0 losses0 (1/100) 0 vecAdd [[1]] [1] [0] [0]).theta = [1]
    ∧ (g_step_update cstep0 losses0 (1/100) 0 vecAdd [[1]] [1] [0] [0]).cg_calls = 0
    ∧ (g_step_update cstep0 losses0 (1/100) 0 vecAdd [[1]] [1] [0] [0]).ls_evals = 0
    ∧ (g_step_update cstep0 losses0 (1/100) 0 vecAdd [[1]] [1] [0] [0]).vf
        = ([[1]] : List (List ℚ)).foldl (fun w gr => vecAdd w gr) [0] :=
  g_step_update_C4 cstep0 losses0 (1/100) 0 vecAdd [[1]] [1] [0] [0] (by decide)

theorem windowEpLens_never_done {E O A : Type} (G : GenEnv E O A)
    (hnd : ∀ s : GenState E O A, iterDone G s = false) :
    ∀ (n : ℕ) (s : GenState E O A), windowEpLens G n s = [] := by
  intro n
  induction n with
  | zero => intro s; rfl
  | succ n ih =>
    intro s
    simp only [windowEpLens, hnd s, Bool.false_eq_true, if_false, List.nil_append]
    exact ih (genIter G s)

/-- C10: the counter `timesteps_so_far`, checked against the `max_timesteps`
budget at the top of every iteration, is incremented each iteration only by
the summed lengths of the episodes that completed during the iteration's
segment, aggregated across all workers (allgather + flatten + sum of the
workers' `ep_lens` lists); steps belonging to episodes still in progress at a
segment boundary carry no `ep_lens` entry and are never counted — in
particular, with an environment whose episodes never finish the counter does
not advance at all even though every segment samples `horizon` steps. -/
theorem timesteps_so_far_C10 {E O A : Type} (G : GenEnv E O A) (horizon old : ℕ)
    (ws : List (GenState E O A)) (hc : ∀ s ∈ ws, bufsCleared s = true) :
    (timesteps_update old (ws.map (fun s => (collectSegment G horizon s).1.ep_lens))
      = old + (ws.map (fun s => (windowEpLens G horizon s).sum)).sum)
    ∧ ((∀ s : GenState E O A, iterDone G s = false) →
        timesteps_update old (ws.map (fun s => (collectSegment G horizon s).1.ep_lens)) = old)
    ∧ (∀ m t, budget_reached m t = true ↔ (m ≠ 0 ∧ m ≤ t)) := by
  have hmap : ws.map (fun s => (collectSegment G horizon s).1.ep_lens)
      = ws.map (fun s => windowEpLens G horizon s) := by
    apply List.map_congr_left
    intro s hsmem
    exact (collectSegment_ep_lists G horizon s (hc s hsmem)).1
  refine ⟨?_, ?_, ?_⟩
  · rw [timesteps_update, hmap, flatten_lists, List.sum_flatten, List.map_map]
    rfl
  · intro hnd
    have hnil : ws.map (fun s => windowEpLens G horizon s) = ws.map (fun _ => ([] : List ℕ)) :=
      List.map_congr_left (fun s _ => windowEpLens_never_done G hnd horizon s)
    rw [timesteps_update, hmap, flatten_lists, hnil, List.sum_flatten, List.map_map]
    simp only [Nat.add_eq_left]
    exact List.sum_eq_zero (fun x hx => by
      obtain ⟨s, -, hxeq⟩ := List.mem_map.mp hx
      simpa using hxeq.symm)
  · intro m t
    simp [budget_reached]

/-- Witness for C10: a never-terminating environment (`Gn`), one worker, a
3-step segment — the timestep counter stays at 7. -/
theorem timesteps_so_far_C10_witness :
    bufsCleared (initState Gn 0) = true
    ∧ timesteps_update 7 ([initState Gn 0].map (fun s => (collectSegment Gn 3 s).1.ep_lens))
        = 7 := by
  refine ⟨by decide, ?_⟩
  exact (timesteps_so_far_C10 Gn 3 7 [initState Gn 0]
    (by intro s hs; rw [List.mem_singleton] at hs; subst hs; decide)).2.1 (fun s => rfl)
